import Mathlib

/-!
Shallow embedding of the recommendation engine of the e-commerce repository
(`recommendations/engine.py`, class `SimpleRecommendationEngine`), together
with theorems settling the specification claims about it.

Conventions of the embedding:
* A catalog row (`Product.objects.values('id','name','price','category')`)
  becomes a `Product` record; decimal prices become exact rationals `ℚ`.
* The interaction log is the external collaborator of the spec (§2, §6): an
  append-only list of `(session_key, product_id, interaction_type)` records,
  filterable by identity, exactly the interface `engine.py` consumes through
  `UserInteraction.objects`.  (The concrete Django model in
  `products/models.py` keys interactions by a `user` foreign key while the
  engine and `products/tests.py` use `session_key`; the engine-facing
  collaborator interface is what is embedded here.)
* `pandas.DataFrame.sample` draws `n` distinct rows uniformly at random.  It
  is embedded as an explicit `sample : Nat → List Product → List Product`
  parameter constrained by `SamplerOK` (returns `min n len` rows, all from
  the input); every theorem quantifies over all such samplers, and concrete
  runs instantiate the deterministic `takeSampler`, one possible draw.
* The Cython path of `_calculate_similarity_matrix` is dead in this tree
  (no `recommendations/similarity` module is present, so the import fails
  and `CYTHON_AVAILABLE` is `False`); the embedded similarity computation is
  `_calculate_cosine_similarity_python`.
-/

namespace RecEngine

/-- One catalog row as loaded by `load_data`
(`Product.objects.all().values('id','name','price','category')`). -/
structure Product where
  id : Int
  name : String
  price : ℚ
  category : String
deriving DecidableEq

/-- One interaction-log row as seen by the engine: the collaborator record
`(session_key, product_id, interaction_type)` with
`interaction_type ∈ {view, like, dislike, purchase}` kept as a string, as the
engine compares it by string equality. -/
structure Interaction where
  session_key : String
  product_id : Int
  ty : String
deriving DecidableEq

/-- One output record of `_format_recommendation`.  The catalog load selects
only `id, name, price, category`, so the `'image' in product_row` test is
always false and `image_url` is always `None`; it is omitted here. -/
structure Recommendation where
  product_id : Int
  name : String
  price : ℚ
  category : String
  similarity_score : ℚ
  final_score : ℚ
  detail_url : String
  reason : String
deriving DecidableEq

/-- `_format_recommendation`. -/
def formatRecommendation (p : Product) (sim fin : ℚ) (reason : String) :
    Recommendation :=
  { product_id := p.id
    name := p.name
    price := p.price
    category := p.category
    similarity_score := sim
    final_score := fin
    detail_url := "/product/" ++ toString p.id ++ "/"
    reason := reason }

/-- `Product.objects.get(id=pid)` over the loaded catalog: the row whose `id`
matches (ids are unique in the database). -/
def findProduct (ps : List Product) (pid : Int) : Option Product :=
  ps.find? fun p => decide (p.id = pid)

/-- distinct categories of the snapshot, the columns of
`pd.get_dummies(products_df['category'])`. -/
def categories (ps : List Product) : List String :=
  (ps.map Product.category).dedup

/-- least element of a price column (`prices.min()`); only used on non-empty
catalogs. -/
def listMin : List ℚ → ℚ
  | [] => 0
  | x :: xs => xs.foldl min x

/-- greatest element of a price column (`prices.max()`). -/
def listMax : List ℚ → ℚ
  | [] => 0
  | x :: xs => xs.foldl max x

/-- min-max normalisation of a price (`(prices - min) / (max - min)`), with
the constant-price fallback `0.5` of `_create_feature_matrix`. -/
def normPrice (ps : List Product) (p : Product) : ℚ :=
  let prices := ps.map Product.price
  let mn := listMin prices
  let mx := listMax prices
  if mn < mx then (p.price - mn) / (mx - mn) else 1 / 2

/-- the 3-bucket equal-width bin of `pd.cut(normalized_prices, bins=3)` over
the normalised range `[0, 1]`: `low` is `(−0.001, 1/3]`, `medium` is
`(1/3, 2/3]`, `high` is `(2/3, 1]`. -/
def binIndex (q : ℚ) : Nat :=
  if q ≤ 1 / 3 then 0 else if q ≤ 2 / 3 then 1 else 2

/-- the three price-bin dummy columns (`pd.get_dummies` of a categorical
always emits all three levels `low, medium, high`). -/
def priceOneHot (ps : List Product) (p : Product) : List ℚ :=
  let b := binIndex (normPrice ps p)
  [if b = 0 then 1 else 0, if b = 1 then 1 else 0, if b = 2 then 1 else 0]

/-- one row of the feature matrix of `_create_feature_matrix`: the one-hot
category indicators followed by the three price-bin indicators. -/
def featureRow (ps : List Product) (p : Product) : List ℚ :=
  ((categories ps).map fun c => if p.category = c then 1 else 0)
    ++ priceOneHot ps p

/-- dot product of two feature rows (`np.dot`). -/
def dotQ (v w : List ℚ) : ℚ :=
  (List.zipWith (· * ·) v w).sum

/-- sum of squares of a row; `‖v‖² = v ⬝ v`. -/
def sumSq (v : List ℚ) : ℚ := dotQ v v

/-- the similarity matrix of `_calculate_cosine_similarity_python`:
`dot(F, Fᵀ)` divided by the outer product of row norms, diagonal then forced
to `0` by `np.fill_diagonal`.  Every feature row of a snapshot holds exactly
two unit entries (one category indicator and one price-bin indicator), so
its Euclidean norm is `√2` and each denominator `‖vᵢ‖·‖vⱼ‖` equals `2`
exactly; the quotient is therefore the exact rational `dot vᵢ vⱼ / 2`
(theorem `cosine_denominator_exact` below establishes this against the
square-root form). -/
def simMatrix (ps : List Product) : List (List ℚ) :=
  let F := ps.map (featureRow ps)
  (List.range ps.length).map fun i =>
    (List.range ps.length).map fun j =>
      if i = j then 0 else dotQ (F.getD i []) (F.getD j []) / 2

/-- interactions of one session
(`UserInteraction.objects.filter(session_key=session_key)`). -/
def sessionInteractions (log : List Interaction) (s : String) :
    List Interaction :=
  log.filter fun i => decide (i.session_key = s)

/-- one step of the `category_preferences` dict building loop of
`_apply_user_preferences`: skip interactions whose product no longer exists,
create a `(likes := 0, dislikes := 0)` entry for a first-seen category, then
bump the matching counter for a like or dislike.  The dict is an association
list in insertion order. -/
def addCatInteraction (ps : List Product) (m : List (String × Nat × Nat))
    (i : Interaction) : List (String × Nat × Nat) :=
  match findProduct ps i.product_id with
  | none => m
  | some p =>
    let m1 := if m.any fun e => decide (e.1 = p.category) then m
              else m ++ [(p.category, 0, 0)]
    if i.ty = "like" then
      m1.map fun e => if e.1 = p.category then (e.1, e.2.1 + 1, e.2.2) else e
    else if i.ty = "dislike" then
      m1.map fun e => if e.1 = p.category then (e.1, e.2.1, e.2.2 + 1) else e
    else m1

/-- the full `category_preferences` dict of `_apply_user_preferences`. -/
def buildCatPrefs (inter : List Interaction) (ps : List Product) :
    List (String × Nat × Nat) :=
  inter.foldl (addCatInteraction ps) []

/-- `price_preferences`: the prices of the still-existing products the
session has liked, in interaction order. -/
def likedPrices (inter : List Interaction) (ps : List Product) : List ℚ :=
  inter.filterMap fun i =>
    if i.ty = "like" then (findProduct ps i.product_id).map Product.price
    else none

/-- `np.mean`. -/
def avgQ (l : List ℚ) : ℚ := l.sum / l.length

/-- square of `np.std` (population standard deviation). -/
def varQ (l : List ℚ) : ℚ :=
  (l.map fun x => (x - avgQ l) ^ 2).sum / l.length

/-- the `price_boost_range[0] <= product_price <= price_boost_range[1]` test
with `std_price = np.std(prices) if len > 1 else avg_price * 0.2`.  For more
than one sample the source compares against `avg ± √variance`; since
`√variance ≥ 0`, that interval test is exactly `(x − avg)² ≤ variance`,
which is how it is decided here over `ℚ` (theorem `withinStd_sqrt_char`
below proves the equivalence with the square-root form). -/
def withinStd (l : List ℚ) (x : ℚ) : Bool :=
  if 1 < l.length then decide ((x - avgQ l) ^ 2 ≤ varQ l)
  else decide (avgQ l - avgQ l * (1 / 5) ≤ x ∧ x ≤ avgQ l + avgQ l * (1 / 5))

/-- the per-product adjustment loop of `_apply_user_preferences`, walking the
product table and the similarity row in lockstep: multiply by the category
preference score when the category is tracked, then by `1.3` inside the
preferred price range, then by `1.5` per direct like and `0.3` per direct
dislike of this very product. -/
def adjustFrom (catScores : List (String × ℚ)) (pricePrefs : List ℚ)
    (inter : List Interaction) : List Product → List ℚ → List ℚ
  | _, [] => []
  | [], ss => ss
  | p :: ps, s :: ss =>
    let s1 := match catScores.find? (fun e => decide (e.1 = p.category)) with
              | some e => s * e.2
              | none => s
    let s2 := if pricePrefs.isEmpty = false ∧ withinStd pricePrefs p.price
              then s1 * (13 / 10) else s1
    let s3 := inter.foldl
      (fun acc i =>
        if i.product_id = p.id then
          if i.ty = "like" then acc * (3 / 2)
          else if i.ty = "dislike" then acc * (3 / 10)
          else acc
        else acc) s2
    s3 :: adjustFrom catScores pricePrefs inter ps ss

/-- `_apply_user_preferences(session_key, similarities)`: no-op on an
identity with no interactions, otherwise the category / price-range / direct
feedback multipliers applied to every row entry. -/
def applyUserPreferences (s : String) (log : List Interaction)
    (ps : List Product) (scores : List ℚ) : List ℚ :=
  let inter := sessionInteractions log s
  if inter.isEmpty then scores
  else
    let catScores := (buildCatPrefs inter ps).map fun e =>
      (e.1, max (1 / 10) (1 + (e.2.1 : ℚ) * (1 / 2) - (e.2.2 : ℚ) * (3 / 10)))
    adjustFrom catScores (likedPrices inter ps) inter ps scores

/-- `np.argsort(similarities)[::-1]`: the indices of the similarity row in
descending score order.  `np.argsort` leaves the relative order of equal
scores unspecified (its default sort is not stable); this embedding fixes
one admissible order via insertion sort. -/
def argsortDesc (scores : List ℚ) : List Nat :=
  List.insertionSort (fun i j => scores.getD j 0 ≤ scores.getD i 0)
    (List.range scores.length)

/-- `_get_recommendation_reason(session_key, product_info, score)`.  The
`.first()` on the direct-interaction query set follows the model ordering
`-timestamp`, i.e. the most recently appended matching row. -/
def recommendationReason (log : List Interaction) (sk : Option String)
    (ps : List Product) (p : Product) (score : ℚ) : String :=
  let base := p.category.toLower
  match sk with
  | none => "Similar " ++ base ++ " product"
  | some s =>
    let likedInCat := log.any fun i =>
      match findProduct ps i.product_id with
      | some q => decide (i.session_key = s ∧ i.ty = "like" ∧
          q.category = p.category)
      | none => false
    if likedInCat then "Based on your interest in " ++ base
    else
      match (log.filter fun i =>
          decide (i.session_key = s ∧ i.product_id = p.id)).getLast? with
      | some pi =>
        if pi.ty = "like" then "Previously liked by you"
        else if pi.ty = "view" then "Previously viewed by you"
        else if score > 4 / 5 then "Highly similar " ++ base ++ " product"
        else "Similar " ++ base ++ " product"
      | none =>
        if score > 4 / 5 then "Highly similar " ++ base ++ " product"
        else "Similar " ++ base ++ " product"

/-- the collection loop of `get_recommendations`: walk the sorted indices,
stop once `count` rows are collected, skip ids already in the `seen` set and
non-positive scores, and record each accepted id in `seen`.  Returns the
collected recommendations together with the final `seen_products` set
(which the source then hands to the personalized fallback). -/
def rankedLoop (log : List Interaction) (sk : Option String)
    (ps : List Product) (scores : List ℚ) (cnt : Nat) :
    List Nat → List Int → List Recommendation →
    List Recommendation × List Int
  | [], seen, acc => (acc, seen)
  | i :: rest, seen, acc =>
    if cnt ≤ acc.length then (acc, seen)
    else
      match ps.get? i with
      | none => rankedLoop log sk ps scores cnt rest seen acc
      | some p =>
        if p.id ∈ seen then rankedLoop log sk ps scores cnt rest seen acc
        else
          let s := scores.getD i 0
          if s ≤ 0 then rankedLoop log sk ps scores cnt rest seen acc
          else
            rankedLoop log sk ps scores cnt rest (p.id :: seen)
              (acc ++ [formatRecommendation p s s
                (recommendationReason log sk ps p s)])

/-- the similarity-ranked portion of a `get_recommendations` response: the
collection loop run over `argsort` order with `seen_products = {product_id}`. -/
def rankedPart (log : List Interaction) (sk : Option String)
    (ps : List Product) (scores : List ℚ) (pid : Int) (cnt : Nat) :
    List Recommendation × List Int :=
  rankedLoop log sk ps scores cnt (argsortDesc scores) [pid] []

/-- `_get_fallback_recommendations(num)`: sample `min(num, len)` rows from
the whole product table (the `seen` set is not consulted) and format each
with `similarity_score = 0.0` and `final_score = 0.1`. -/
def plainFallback (sample : Nat → List Product → List Product)
    (ps : List Product) (n : Nat) : List Recommendation :=
  if ps.isEmpty then []
  else
    (sample (min n ps.length) ps).map fun p =>
      formatRecommendation p 0 (1 / 10)
        ("Popular " ++ p.category.toLower ++ " product")

/-- the `sample_and_format` helper of
`_get_personalized_fallback_recommendations`: sample from a sub-table and
format with `similarity_score = 0.5` and `final_score = 0.5`. -/
def sampleAndFormat (sample : Nat → List Product → List Product)
    (df : List Product) (n : Nat) : List Recommendation :=
  if df.isEmpty then []
  else
    (sample (min n df.length) df).map fun p =>
      formatRecommendation p (1 / 2) (1 / 2)
        ("Popular in " ++ p.category.toLower ++ " (your preferred category)")

/-- `_get_personalized_fallback_recommendations(session_key, num, seen)`:
without an identity, plain fallback; otherwise sample first from the
identity's liked categories excluding `seen`, then top up from the plain
fallback (which ignores `seen`), and truncate to `num`. -/
def personalizedFallback (sample : Nat → List Product → List Product)
    (log : List Interaction) (sk : Option String) (ps : List Product)
    (n : Nat) (seen : List Int) : List Recommendation :=
  match sk with
  | none => plainFallback sample ps n
  | some s =>
    let likedCats := (log.filterMap fun i =>
      if i.session_key = s ∧ i.ty = "like" then
        (findProduct ps i.product_id).map Product.category
      else none).dedup
    let recs :=
      if likedCats.isEmpty then ([] : List Recommendation)
      else
        let preferred := ps.filter fun p =>
          decide (p.category ∈ likedCats) && decide (p.id ∉ seen)
        sampleAndFormat sample preferred n
    let recs :=
      if recs.length < n then recs ++ plainFallback sample ps (n - recs.length)
      else recs
    recs.take n

/-- the similarity row actually ranked: adjusted by
`_apply_user_preferences` when a session key is supplied, the raw row
otherwise. -/
def adjustedRow (log : List Interaction) (sk : Option String)
    (ps : List Product) (row : List ℚ) : List ℚ :=
  match sk with
  | some s => applyUserPreferences s log ps row
  | none => row

/-- the body of `get_recommendations` after the lazy load: empty result on an
empty table or missing similarity matrix, plain fallback for an unknown
`product_id`, otherwise the preference-adjusted similarity row is ranked and
topped up with personalized fallback, truncated to `num_recommendations`. -/
def getRecsCore (sample : Nat → List Product → List Product)
    (ps : List Product) (simM : Option (List (List ℚ)))
    (log : List Interaction) (sk : Option String) (pid : Int) (cnt : Nat) :
    List Recommendation :=
  if ps.isEmpty then []
  else
    match simM with
    | none => []
    | some m =>
      match ps.findIdx? (fun p => decide (p.id = pid)) with
      | none => plainFallback sample ps cnt
      | some i =>
        let sims := adjustedRow log sk ps (m.getD i [])
        let rp := rankedPart log sk ps sims pid cnt
        let recs :=
          if rp.1.length < cnt then
            rp.1 ++ personalizedFallback sample log sk ps (cnt - rp.1.length)
              rp.2
          else rp.1
        recs.take cnt

/-- the deterministic sampler used for concrete runs: take the first `n`
rows.  One admissible draw of `DataFrame.sample(n)` (which returns `n`
distinct rows in some order). -/
def takeSampler (n : Nat) (ps : List Product) : List Product := ps.take n

/-- well-formedness of an embedded sampler: `DataFrame.sample(n=min(n,len))`
returns exactly `min n len` rows, all drawn from the table. -/
def SamplerOK (sample : Nat → List Product → List Product) : Prop :=
  ∀ n ps, (sample n ps).length = min n ps.length ∧
    ∀ p, p ∈ sample n ps → p ∈ ps

/-- the mutable fields of `SimpleRecommendationEngine`, plus an
instrumentation counter `load_count` recording how many times `load_data`
has run (the observable needed to phrase the does-not-retry claims). -/
structure EngineState where
  products_df : Option (List Product)
  similarity_matrix : Option (List (List ℚ))
  is_loaded : Bool
  load_count : Nat
deriving DecidableEq

/-- `__init__`. -/
def initialEngine : EngineState :=
  { products_df := none, similarity_matrix := none, is_loaded := false
    load_count := 0 }

/-- `load_data()`, with the catalog collaborator's answer passed in as an
`Except` value: a collaborator failure is caught and leaves an empty table
with `is_loaded = False`; an empty catalog leaves an empty table without
touching `is_loaded`; a non-empty catalog installs the table and similarity
matrix and sets `is_loaded = True`.  The stored similarity matrix is only
replaced on a successful non-empty load, matching the source, where
`_calculate_similarity_matrix` is only reached in that branch. -/
def load_data (res : Except Unit (List Product)) (e : EngineState) :
    EngineState :=
  match res with
  | .error _ =>
    { products_df := some [], similarity_matrix := e.similarity_matrix
      is_loaded := false, load_count := e.load_count + 1 }
  | .ok ps =>
    if ps.isEmpty then
      { products_df := some ps, similarity_matrix := e.similarity_matrix
        is_loaded := e.is_loaded, load_count := e.load_count + 1 }
    else
      { products_df := some ps, similarity_matrix := some (simMatrix ps)
        is_loaded := true, load_count := e.load_count + 1 }

/-- `get_recommendations` as a state transition: lazy-load when
`is_loaded` is false, then run the core on the stored snapshot. -/
def get_recommendations (res : Except Unit (List Product))
    (log : List Interaction) (sk : Option String)
    (sample : Nat → List Product → List Product) (pid : Int) (cnt : Nat)
    (e : EngineState) : EngineState × List Recommendation :=
  let e1 := if e.is_loaded then e else load_data res e
  (e1, getRecsCore sample (e1.products_df.getD []) e1.similarity_matrix
    log sk pid cnt)

/-- `refresh_data()`: clear the loaded flag and reload at once. -/
def refresh_data (res : Except Unit (List Product)) (e : EngineState) :
    EngineState :=
  load_data res { e with is_loaded := false }

/-- `update_with_feedback(session_key, product_id, feedback)`: one
`UserInteraction.objects.create`, i.e. one appended collaborator row.  The
engine performs no duplicate check of its own. -/
def update_with_feedback (log : List Interaction) (sk : String) (pid : Int)
    (feedback : String) : List Interaction :=
  log ++ [{ session_key := sk, product_id := pid, ty := feedback }]

/-- `k` successive `get_recommendations` calls against a fixed collaborator
answer, threading the engine state. -/
def callRepeatedly (res : Except Unit (List Product))
    (log : List Interaction) (sk : Option String)
    (sample : Nat → List Product → List Product) (pid : Int) (cnt : Nat) :
    Nat → EngineState → EngineState
  | 0, e => e
  | k + 1, e =>
    callRepeatedly res log sk sample pid cnt k
      (get_recommendations res log sk sample pid cnt e).1

/-- number of "like" interactions of a session whose product still exists
and belongs to category `c` — the value `category_preferences[c]['likes']`
reaches at the end of the dict-building loop. -/
def likesInCategory (inter : List Interaction) (ps : List Product)
    (c : String) : Nat :=
  (inter.filter fun i =>
    match findProduct ps i.product_id with
    | some p => decide (i.ty = "like" ∧ p.category = c)
    | none => false).length

/-- `category_preferences[c]['dislikes']` at the end of the loop. -/
def dislikesInCategory (inter : List Interaction) (ps : List Product)
    (c : String) : Nat :=
  (inter.filter fun i =>
    match findProduct ps i.product_id with
    | some p => decide (i.ty = "dislike" ∧ p.category = c)
    | none => false).length

/-- whether category `c` has an entry in `category_preferences` at all: some
interaction (of any type) touches a still-existing product of category `c`. -/
def categoryTracked (inter : List Interaction) (ps : List Product)
    (c : String) : Bool :=
  inter.any fun i =>
    match findProduct ps i.product_id with
    | some p => decide (p.category = c)
    | none => false

/-- number of direct "like" interactions of the session with product `pid`. -/
def directLikes (inter : List Interaction) (pid : Int) : Nat :=
  (inter.filter fun i => decide (i.product_id = pid ∧ i.ty = "like")).length

/-- number of direct "dislike" interactions of the session with `pid`. -/
def directDislikes (inter : List Interaction) (pid : Int) : Nat :=
  (inter.filter fun i =>
    decide (i.product_id = pid ∧ i.ty = "dislike")).length

/-! ## Supporting lemmas -/

theorem getD_map_range {α : Type} (f : ℕ → α) (d : α) {n i : ℕ} (h : i < n) :
    ((List.range n).map f).getD i d = f i := by
  rw [List.getD_eq_getD_get?, List.get?_map, List.get?_range h]
  rfl

theorem dotQ_comm (v w : List ℚ) : dotQ v w = dotQ w v := by
  unfold dotQ
  rw [List.zipWith_comm_of_comm _ mul_comm]

theorem dotQ_self_eq_sum_sq (v : List ℚ) :
    dotQ v v = (v.map fun x => x * x).sum := by
  unfold dotQ
  rw [List.zipWith_same]

theorem onehot_sum_sq {l : List String} {c : String} (hnd : l.Nodup)
    (hc : c ∈ l) :
    ((l.map fun x => if c = x then (1 : ℚ) else 0).map fun x => x * x).sum
      = 1 := by
  induction l with
  | nil => cases hc
  | cons a t ih =>
    rcases List.nodup_cons.mp hnd with ⟨ha, hndt⟩
    by_cases hca : c = a
    · subst hca
      have hz : ∀ x ∈ t, (if c = x then (1 : ℚ) else 0) = 0 := by
        intro x hx
        have : c ≠ x := fun hcx => ha (hcx ▸ hx)
        simp [this]
      simp only [List.map_cons, if_pos rfl, List.sum_cons, one_mul]
      have : ((t.map fun x => if c = x then (1 : ℚ) else 0).map
          fun x => x * x).sum = 0 := by
        apply List.sum_eq_zero
        intro y hy
        rcases List.mem_map.mp hy with ⟨z, hz1, rfl⟩
        rcases List.mem_map.mp hz1 with ⟨w, hw1, rfl⟩
        rw [hz w hw1]
        ring
      rw [this]
      norm_num
    · have hct : c ∈ t := by
        rcases List.mem_cons.mp hc with h | h
        · exact absurd h hca
        · exact h
      simp only [List.map_cons, if_neg hca, List.sum_cons, mul_zero, zero_add]
      exact ih hndt hct

theorem binIndex_cases (q : ℚ) :
    binIndex q = 0 ∨ binIndex q = 1 ∨ binIndex q = 2 := by
  unfold binIndex
  split_ifs <;> simp

theorem priceOneHot_sum_sq (ps : List Product) (p : Product) :
    ((priceOneHot ps p).map fun x => x * x).sum = 1 := by
  rcases binIndex_cases (normPrice ps p) with h | h | h <;>
    simp [priceOneHot, h]

theorem sumSq_featureRow (ps : List Product) (p : Product) (hp : p ∈ ps) :
    sumSq (featureRow ps p) = 2 := by
  have hlen : ∀ v : List ℚ, dotQ v v = (v.map fun x => x * x).sum :=
    dotQ_self_eq_sum_sq
  unfold sumSq featureRow
  rw [hlen, List.map_append, List.sum_append, onehot_sum_sq, priceOneHot_sum_sq]
  · norm_num
  · exact List.nodup_dedup _
  · exact List.mem_dedup.mpr (List.mem_map.mpr ⟨p, hp, rfl⟩)

/-- Fidelity of the rational similarity entries: the cosine denominator of
`_calculate_cosine_similarity_python` — the product of the Euclidean norms
`√(vᵢ⬝vᵢ)·√(vⱼ⬝vⱼ)` of two snapshot feature rows — equals `2` exactly, so
the stored quotient is the exact rational `dot/2` used by `simMatrix`. -/
theorem cosine_denominator_exact (ps : List Product) (p q : Product)
    (hp : p ∈ ps) (hq : q ∈ ps) :
    ((dotQ (featureRow ps p) (featureRow ps q) : ℚ) : ℝ) /
        (Real.sqrt ((sumSq (featureRow ps p) : ℚ) : ℝ) *
          Real.sqrt ((sumSq (featureRow ps q) : ℚ) : ℝ))
      = ((dotQ (featureRow ps p) (featureRow ps q) / 2 : ℚ) : ℝ) := by
  rw [sumSq_featureRow ps p hp, sumSq_featureRow ps q hq]
  have h2 : ((2 : ℚ) : ℝ) = (2 : ℝ) := by norm_num
  rw [h2, Real.mul_self_sqrt (by norm_num : (0 : ℝ) ≤ 2)]
  push_cast
  ring

theorem varQ_nonneg (l : List ℚ) : 0 ≤ varQ l := by
  unfold varQ
  apply div_nonneg
  · apply List.sum_nonneg
    intro y hy
    rcases List.mem_map.mp hy with ⟨z, _, rfl⟩
    positivity
  · positivity

/-- Fidelity of the `withinStd` test: for more than one liked price the
source compares the candidate price against `avg ± np.std`, i.e. against
`avg ± √variance`; since `√variance ≥ 0` this is exactly the squared test
`(x − avg)² ≤ variance` that `withinStd` decides over `ℚ`. -/
theorem withinStd_sqrt_char (l : List ℚ) (x : ℚ) (hl : 1 < l.length) :
    withinStd l x = true ↔
      ((avgQ l : ℝ) - Real.sqrt ((varQ l : ℚ) : ℝ) ≤ (x : ℝ) ∧
        (x : ℝ) ≤ (avgQ l : ℝ) + Real.sqrt ((varQ l : ℚ) : ℝ)) := by
  have hv : (0 : ℝ) ≤ ((varQ l : ℚ) : ℝ) := by
    exact_mod_cast varQ_nonneg l
  unfold withinStd
  rw [if_pos hl, decide_eq_true_iff]
  constructor
  · intro h
    have hR : ((x : ℝ) - (avgQ l : ℝ)) ^ 2 ≤ ((varQ l : ℚ) : ℝ) := by
      have := (Rat.cast_le (K := ℝ)).mpr h
      push_cast at this
      convert this using 2
    have habs := abs_le.mp (Real.abs_le_sqrt hR)
    constructor <;> linarith [habs.1, habs.2]
  · rintro ⟨h1, h2⟩
    have habs : |(x : ℝ) - (avgQ l : ℝ)| ≤ Real.sqrt ((varQ l : ℚ) : ℝ) :=
      abs_le.mpr ⟨by linarith, by linarith⟩
    have hsq : ((x : ℝ) - (avgQ l : ℝ)) ^ 2 ≤ ((varQ l : ℚ) : ℝ) := by
      calc ((x : ℝ) - (avgQ l : ℝ)) ^ 2
          = |(x : ℝ) - (avgQ l : ℝ)| ^ 2 := (sq_abs _).symm
        _ ≤ Real.sqrt ((varQ l : ℚ) : ℝ) ^ 2 :=
            pow_le_pow_left₀ (abs_nonneg _) habs 2
        _ = ((varQ l : ℚ) : ℝ) := Real.sq_sqrt hv
    have : ((x - avgQ l : ℚ) : ℝ) ^ 2 ≤ ((varQ l : ℚ) : ℝ) := by
      push_cast
      convert hsq using 2
    exact_mod_cast this

/-! ## Claim theorems -/

/-- C7: for every catalog snapshot the similarity matrix of
`_calculate_cosine_similarity_python` is symmetric, and every diagonal entry
is exactly `0` (forced by `np.fill_diagonal`). -/
theorem similarity_symm_diag_zero (ps : List Product) (i j : ℕ)
    (hi : i < ps.length) (hj : j < ps.length) :
    ((simMatrix ps).getD i []).getD j 0 = ((simMatrix ps).getD j []).getD i 0
      ∧ ((simMatrix ps).getD i []).getD i 0 = 0 := by
  unfold simMatrix
  constructor
  · rw [getD_map_range _ _ hi, getD_map_range _ _ hj,
      getD_map_range _ _ hj, getD_map_range _ _ hi]
    by_cases hij : i = j
    · subst hij
      simp
    · rw [if_neg hij, if_neg (Ne.symm hij), dotQ_comm]
  · rw [getD_map_range _ _ hi, getD_map_range _ _ hi]
    simp

/-- C7 witness: the symmetry and zero-diagonal statement instantiated on a
concrete two-product snapshot. -/
theorem similarity_symm_diag_zero_witness :
    (0 : ℕ) < ([⟨1, "A", 10, "X"⟩, ⟨2, "B", 20, "Y"⟩] :
        List Product).length ∧
    (1 : ℕ) < ([⟨1, "A", 10, "X"⟩, ⟨2, "B", 20, "Y"⟩] :
        List Product).length ∧
    (((simMatrix [⟨1, "A", 10, "X"⟩, ⟨2, "B", 20, "Y"⟩]).getD 0 []).getD 1 0
        = ((simMatrix [⟨1, "A", 10, "X"⟩, ⟨2, "B", 20, "Y"⟩]).getD 1
          []).getD 0 0
      ∧ ((simMatrix [⟨1, "A", 10, "X"⟩, ⟨2, "B", 20, "Y"⟩]).getD 0
          []).getD 0 0 = 0) :=
  ⟨by decide, by decide,
    similarity_symm_diag_zero [⟨1, "A", 10, "X"⟩, ⟨2, "B", 20, "Y"⟩] 0 1
      (by decide) (by decide)⟩

/-- C9: `update_with_feedback` appends exactly one interaction record per
call, and a duplicate call with the same `(identity, product, type)` triple
appends a second identical row — the engine itself guarantees no
idempotency. -/
theorem update_with_feedback_appends (log : List Interaction) (sk : String)
    (pid : Int) (fb : String) :
    update_with_feedback log sk pid fb
        = log ++ [{ session_key := sk, product_id := pid, ty := fb }]
      ∧ (update_with_feedback log sk pid fb).length = log.length + 1
      ∧ (update_with_feedback (update_with_feedback log sk pid fb) sk pid
            fb).count { session_key := sk, product_id := pid, ty := fb }
        = log.count { session_key := sk, product_id := pid, ty := fb }
            + 2 := by
  refine ⟨rfl, by simp [update_with_feedback], ?_⟩
  simp [update_with_feedback, List.count_append]

/-- Invariants of the collection loop of `get_recommendations`: the final
`seen` set extends the initial one and covers every collected id; collected
ids are duplicate-free; ids already in `seen` but not contributed by `acc`
are never added; every collected row beyond `acc` is a genuinely ranked row
(equal scores, positive, product drawn from the table); and at most
`max cnt acc.length` rows come back. -/
theorem rankedLoop_spec (log : List Interaction) (sk : Option String)
    (ps : List Product) (scores : List ℚ) (cnt : Nat) :
    ∀ (idxs : List Nat) (seen : List Int) (acc : List Recommendation),
      (∀ r ∈ acc, r.product_id ∈ seen) →
      (acc.map Recommendation.product_id).Nodup →
      (∀ x ∈ seen, x ∈ (rankedLoop log sk ps scores cnt idxs seen acc).2)
      ∧ (∀ r ∈ (rankedLoop log sk ps scores cnt idxs seen acc).1,
          r.product_id ∈ (rankedLoop log sk ps scores cnt idxs seen acc).2)
      ∧ ((rankedLoop log sk ps scores cnt idxs seen acc).1.map
          Recommendation.product_id).Nodup
      ∧ (∀ x ∈ seen, x ∉ acc.map Recommendation.product_id →
          x ∉ (rankedLoop log sk ps scores cnt idxs seen acc).1.map
            Recommendation.product_id)
      ∧ (∀ r ∈ (rankedLoop log sk ps scores cnt idxs seen acc).1,
          r ∈ acc ∨
            (r.final_score = r.similarity_score ∧ 0 < r.similarity_score ∧
              r.product_id ∈ ps.map Product.id))
      ∧ (rankedLoop log sk ps scores cnt idxs seen acc).1.length
          ≤ max cnt acc.length := by
  intro idxs
  induction idxs with
  | nil =>
    intro seen acc h1 h2
    refine ⟨fun x hx => hx, h1, h2, fun x _ hx => hx, fun r hr => .inl hr,
      le_max_right _ _⟩
  | cons i rest ih =>
    intro seen acc h1 h2
    by_cases hbrk : cnt ≤ acc.length
    · simp only [rankedLoop, if_pos hbrk]
      exact ⟨fun x hx => hx, h1, h2, fun x _ hx => hx, fun r hr => .inl hr,
        le_max_right _ _⟩
    · simp only [rankedLoop, if_neg hbrk]
      cases hg : ps.get? i with
      | none => exact ih seen acc h1 h2
      | some p =>
        by_cases hseen : p.id ∈ seen
        · simp only [if_pos hseen]
          exact ih seen acc h1 h2
        · simp only [if_neg hseen]
          by_cases hs : scores.getD i 0 ≤ 0
          · simp only [if_pos hs]
            exact ih seen acc h1 h2
          · simp only [if_neg hs]
            have hpmem : p ∈ ps := List.get?_mem hg
            set rec0 := formatRecommendation p (scores.getD i 0)
              (scores.getD i 0)
              (recommendationReason log sk ps p (scores.getD i 0)) with hrec0
            have hrecid : rec0.product_id = p.id := rfl
            have h1' : ∀ r ∈ acc ++ [rec0], r.product_id ∈ p.id :: seen := by
              intro r hr
              rcases List.mem_append.mp hr with hr | hr
              · exact List.mem_cons_of_mem _ (h1 r hr)
              · rcases List.mem_singleton.mp hr with rfl
                rw [hrecid]
                exact List.mem_cons_self _ _
            have hnotacc : p.id ∉ acc.map Recommendation.product_id := by
              intro hmem
              rcases List.mem_map.mp hmem with ⟨r, hr, hid⟩
              exact hseen (hid ▸ h1 r hr)
            have h2' : ((acc ++ [rec0]).map
                Recommendation.product_id).Nodup := by
              rw [List.map_append]
              refine List.nodup_append.mpr ⟨h2, List.nodup_singleton _, ?_⟩
              intro a ha hb
              rcases List.mem_singleton.mp (by simpa using hb) with rfl
              exact hnotacc (hrecid ▸ ha)
            obtain ⟨g1, g2, g3, g4, g5, g6⟩ :=
              ih (p.id :: seen) (acc ++ [rec0]) h1' h2'
            refine ⟨?_, g2, g3, ?_, ?_, ?_⟩
            · intro x hx
              exact g1 x (List.mem_cons_of_mem _ hx)
            · intro x hx hxacc
              refine g4 x (List.mem_cons_of_mem _ hx) ?_
              rw [List.map_append]
              intro hmem
              rcases List.mem_append.mp hmem with hmem | hmem
              · exact hxacc hmem
              · rcases List.mem_singleton.mp (by simpa using hmem) with rfl
                exact hseen hx
            · intro r hr
              rcases g5 r hr with hracc | hgood
              · rcases List.mem_append.mp hracc with hracc | hracc
                · exact .inl hracc
                · rcases List.mem_singleton.mp hracc with rfl
                  refine .inr ⟨rfl, lt_of_not_le hs, ?_⟩
                  rw [hrecid]
                  exact List.mem_map.mpr ⟨p, hpmem, rfl⟩
              · exact .inr hgood
            · have := g6
              rw [List.length_append] at this
              simp only [List.length_singleton] at this
              omega

/-- C1 (amended): the similarity-ranked portion of a response never
contains the queried `product_id` and never repeats a `product_id` — the
loop's `seen_products` set, seeded with the queried id, guarantees it.  (The
plain random fallback that pads short responses draws from the whole table
without consulting `seen_products`, so the full padded response can violate
both parts; see the recorded counterexample.) -/
theorem ranked_no_self_no_dup (log : List Interaction) (sk : Option String)
    (ps : List Product) (scores : List ℚ) (pid : Int) (cnt : Nat) :
    pid ∉ (rankedPart log sk ps scores pid cnt).1.map
        Recommendation.product_id
      ∧ ((rankedPart log sk ps scores pid cnt).1.map
        Recommendation.product_id).Nodup := by
  obtain ⟨-, -, g3, g4, -, -⟩ :=
    rankedLoop_spec log sk ps scores cnt (argsortDesc scores) [pid] []
      (by intro r hr; cases hr) (by simp)
  exact ⟨g4 pid (List.mem_singleton.mpr rfl) (by simp), g3⟩

/-- C1 counterexample: a concrete run of `get_recommendations` whose padded
response contains the queried product itself.  Catalog: two products of
different categories and different price bins, so the query's similarity row
is all zero; the ranked portion is empty and the plain fallback samples the
whole table, query product included. -/
theorem fallback_includes_query_counterexample :
    1 ∈ (getRecsCore takeSampler
        [⟨1, "A", 10, "X"⟩, ⟨2, "B", 20, "Y"⟩]
        (some (simMatrix [⟨1, "A", 10, "X"⟩, ⟨2, "B", 20, "Y"⟩]))
        [] none 1 2).map Recommendation.product_id := by
  with_unfolding_all decide

/-- C10: every row of the similarity-ranked (non-fallback) portion of a
response carries `final_score` equal to `similarity_score` — the source
passes the same adjusted similarity for both fields, with no blended
multi-signal score — and that shared score is strictly positive, because
candidates with score ≤ 0 are skipped. -/
theorem ranked_final_eq_similarity_pos (log : List Interaction)
    (sk : Option String) (ps : List Product) (scores : List ℚ) (pid : Int)
    (cnt : Nat) (r : Recommendation)
    (hr : r ∈ (rankedPart log sk ps scores pid cnt).1) :
    r.final_score = r.similarity_score ∧ 0 < r.similarity_score := by
  obtain ⟨-, -, -, -, g5, -⟩ :=
    rankedLoop_spec log sk ps scores cnt (argsortDesc scores) [pid] []
      (by intro r hr; cases hr) (by simp)
  rcases g5 r hr with habs | hgood
  · cases habs
  · exact ⟨hgood.1, hgood.2.1⟩

/-- C10 witness: a concrete ranked row with its hypotheses discharged. -/
theorem ranked_final_eq_similarity_pos_witness :
    (formatRecommendation ⟨2, "B", 120, "Electronics"⟩ 1 1
        (recommendationReason [] none
          [⟨1, "A", 100, "Electronics"⟩, ⟨2, "B", 120, "Electronics"⟩,
            ⟨3, "C", 20, "Books"⟩] ⟨2, "B", 120, "Electronics"⟩ 1)
      ∈ (rankedPart [] none
        [⟨1, "A", 100, "Electronics"⟩, ⟨2, "B", 120, "Electronics"⟩,
          ⟨3, "C", 20, "Books"⟩]
        ((simMatrix [⟨1, "A", 100, "Electronics"⟩,
          ⟨2, "B", 120, "Electronics"⟩, ⟨3, "C", 20, "Books"⟩]).getD 0 [])
        1 10).1)
    ∧ ((formatRecommendation ⟨2, "B", 120, "Electronics"⟩ 1 1
        (recommendationReason [] none
          [⟨1, "A", 100, "Electronics"⟩, ⟨2, "B", 120, "Electronics"⟩,
            ⟨3, "C", 20, "Books"⟩] ⟨2, "B", 120, "Electronics"⟩
          1)).final_score
      = (formatRecommendation ⟨2, "B", 120, "Electronics"⟩ 1 1
        (recommendationReason [] none
          [⟨1, "A", 100, "Electronics"⟩, ⟨2, "B", 120, "Electronics"⟩,
            ⟨3, "C", 20, "Books"⟩] ⟨2, "B", 120, "Electronics"⟩
          1)).similarity_score
      ∧ 0 < (formatRecommendation ⟨2, "B", 120, "Electronics"⟩ 1 1
        (recommendationReason [] none
          [⟨1, "A", 100, "Electronics"⟩, ⟨2, "B", 120, "Electronics"⟩,
            ⟨3, "C", 20, "Books"⟩] ⟨2, "B", 120, "Electronics"⟩
          1)).similarity_score) :=
  ⟨by with_unfolding_all decide,
    ranked_final_eq_similarity_pos [] none
      [⟨1, "A", 100, "Electronics"⟩, ⟨2, "B", 120, "Electronics"⟩,
        ⟨3, "C", 20, "Books"⟩]
      ((simMatrix [⟨1, "A", 100, "Electronics"⟩,
        ⟨2, "B", 120, "Electronics"⟩, ⟨3, "C", 20, "Books"⟩]).getD 0 [])
      1 10 _ (by with_unfolding_all decide)⟩

/-- `takeSampler` is one admissible draw of `DataFrame.sample`. -/
theorem takeSampler_ok : SamplerOK takeSampler := by
  intro n ps
  constructor
  · simp [takeSampler]
  · intro p hp
    exact List.take_subset n ps hp

/-- C6 (amended): every response is at most `count` long, and the
similarity-ranked portion is at most `catalog size − 1` long; but the padded
response as a whole can exceed `catalog size − 1`, because the plain
fallback re-samples the full table (see the recorded counterexample for the
spec's 3-product scenario, which returns 4 rows, not 2). -/
theorem length_bounds (sample : Nat → List Product → List Product)
    (hs : SamplerOK sample) (ps : List Product)
    (simM : Option (List (List ℚ))) (log : List Interaction)
    (sk : Option String) (pid : Int) (cnt : Nat) :
    (getRecsCore sample ps simM log sk pid cnt).length ≤ cnt
      ∧ ∀ scores : List ℚ, pid ∈ ps.map Product.id →
          (rankedPart log sk ps scores pid cnt).1.length ≤ ps.length - 1 := by
  constructor
  · by_cases h0 : ps.isEmpty
    · simp [getRecsCore, h0]
    · cases simM with
      | none =>
        simp [getRecsCore, h0]
      | some m =>
        cases hf : ps.findIdx? (fun p => decide (p.id = pid)) with
        | none =>
          simp only [getRecsCore, h0, Bool.false_eq_true, if_false, hf]
          unfold plainFallback
          rw [if_neg h0, List.length_map, (hs _ _).1]
          omega
        | some i =>
          simp only [getRecsCore, h0, Bool.false_eq_true, if_false, hf]
          rw [List.length_take]
          omega
  · intro scores hpid
    obtain ⟨-, -, g3, g4, g5, -⟩ :=
      rankedLoop_spec log sk ps scores cnt (argsortDesc scores) [pid] []
        (by intro r hr; cases hr) (by simp)
    have hnotpid :
        pid ∉ (rankedPart log sk ps scores pid cnt).1.map
          Recommendation.product_id :=
      g4 pid (List.mem_singleton.mpr rfl) (by simp)
    have hsub : (rankedPart log sk ps scores pid cnt).1.map
        Recommendation.product_id ⊆ (ps.map Product.id).erase pid := by
      intro x hx
      obtain ⟨r, hr, hxr⟩ := List.mem_map.mp hx
      rcases g5 r hr with habs | hgood
      · cases habs
      · have hne : x ≠ pid := by
          intro he
          exact hnotpid (List.mem_map.mpr ⟨r, hr, hxr.trans he⟩)
        refine (List.mem_erase_of_ne hne).mpr ?_
        rw [← hxr]
        exact hgood.2.2
    have hlen := (List.subperm_of_subset g3 hsub).length_le
    rw [List.length_map, List.length_erase_of_mem hpid, List.length_map]
      at hlen
    exact hlen

/-- C6 witness: both bounds instantiated on a concrete catalog and request,
with the sampler hypothesis discharged by `takeSampler_ok`. -/
theorem length_bounds_witness :
    SamplerOK takeSampler
      ∧ ((getRecsCore takeSampler
            [⟨1, "A", 100, "Electronics"⟩, ⟨2, "B", 120, "Electronics"⟩,
              ⟨3, "C", 20, "Books"⟩]
            (some (simMatrix [⟨1, "A", 100, "Electronics"⟩,
              ⟨2, "B", 120, "Electronics"⟩, ⟨3, "C", 20, "Books"⟩]))
            [] none 1 10).length ≤ 10
          ∧ ∀ scores : List ℚ,
              (1 : Int) ∈ ([⟨1, "A", 100, "Electronics"⟩,
                  ⟨2, "B", 120, "Electronics"⟩, ⟨3, "C", 20, "Books"⟩] :
                List Product).map Product.id →
              (rankedPart [] none
                [⟨1, "A", 100, "Electronics"⟩, ⟨2, "B", 120, "Electronics"⟩,
                  ⟨3, "C", 20, "Books"⟩] scores 1 10).1.length
                ≤ ([⟨1, "A", 100, "Electronics"⟩,
                  ⟨2, "B", 120, "Electronics"⟩, ⟨3, "C", 20, "Books"⟩] :
                  List Product).length - 1) :=
  ⟨takeSampler_ok,
    length_bounds takeSampler takeSampler_ok
      [⟨1, "A", 100, "Electronics"⟩, ⟨2, "B", 120, "Electronics"⟩,
        ⟨3, "C", 20, "Books"⟩]
      (some (simMatrix [⟨1, "A", 100, "Electronics"⟩,
        ⟨2, "B", 120, "Electronics"⟩, ⟨3, "C", 20, "Books"⟩]))
      [] none 1 10⟩

/-- C6 counterexample: the spec's own scenario — catalog of 3 products
(A: Electronics 100, B: Electronics 120, C: Books 20), query A with
`count = 10` — returns 4 rows (ranked B, then the fallback re-sample
A, B, C), not the claimed 2, exceeding catalog size − 1 and repeating B
and including the query product A. -/
theorem three_product_scenario_counterexample :
    (getRecsCore takeSampler
        [⟨1, "A", 100, "Electronics"⟩, ⟨2, "B", 120, "Electronics"⟩,
          ⟨3, "C", 20, "Books"⟩]
        (some (simMatrix [⟨1, "A", 100, "Electronics"⟩,
          ⟨2, "B", 120, "Electronics"⟩, ⟨3, "C", 20, "Books"⟩]))
        [] none 1 10).map Recommendation.product_id = [2, 1, 2, 3] := by
  with_unfolding_all decide

/-- C4: requesting recommendations for a `product_id` absent from the
catalog yields a non-empty (plain fallback) list whenever the loaded catalog
is non-empty, and an empty list whenever the catalog is empty. -/
theorem unknown_product_fallback (sample : Nat → List Product → List Product)
    (hs : SamplerOK sample) (ps : List Product) (log : List Interaction)
    (sk : Option String) (pid : Int) (cnt : Nat) (hcnt : 0 < cnt)
    (habs : pid ∉ ps.map Product.id) :
    (ps ≠ [] →
        getRecsCore sample ps (some (simMatrix ps)) log sk pid cnt ≠ [])
      ∧ ∀ simM, ps = [] → getRecsCore sample ps simM log sk pid cnt = [] := by
  constructor
  · intro hne
    have h0 : ps.isEmpty = false := List.isEmpty_eq_false.mpr hne
    have hfind : ps.findIdx? (fun p => decide (p.id = pid)) = none := by
      rw [List.findIdx?_eq_none_iff]
      intro p hp
      have : p.id ≠ pid := by
        intro he
        exact habs (he ▸ List.mem_map.mpr ⟨p, hp, rfl⟩)
      simpa using this
    simp only [getRecsCore, h0, Bool.false_eq_true, if_false, hfind]
    unfold plainFallback
    have h0' : ¬ps.isEmpty = true := by
      simp [h0]
    rw [if_neg h0']
    intro hcontra
    have hlen := congrArg List.length hcontra
    rw [List.length_map, (hs _ _).1] at hlen
    have hpos : 0 < ps.length := List.length_pos.mpr hne
    simp only [List.length_nil] at hlen
    omega
  · intro simM h
    subst h
    simp [getRecsCore]

/-- C4 witness: a concrete unknown product id against a one-product catalog,
and against the empty catalog. -/
theorem unknown_product_fallback_witness :
    SamplerOK takeSampler ∧ 0 < 1
      ∧ (99 : Int) ∉ ([⟨1, "A", 10, "X"⟩] : List Product).map Product.id
      ∧ (([⟨1, "A", 10, "X"⟩] : List Product) ≠ [] →
          getRecsCore takeSampler [⟨1, "A", 10, "X"⟩]
            (some (simMatrix [⟨1, "A", 10, "X"⟩])) [] none 99 1 ≠ [])
      ∧ ∀ simM, ([⟨1, "A", 10, "X"⟩] : List Product) = [] →
          getRecsCore takeSampler [⟨1, "A", 10, "X"⟩] simM [] none 99 1
            = [] :=
  ⟨takeSampler_ok, by decide, by with_unfolding_all decide,
    (unknown_product_fallback takeSampler takeSampler_ok [⟨1, "A", 10, "X"⟩]
      [] none 99 1 (by decide) (by with_unfolding_all decide)).1,
    (unknown_product_fallback takeSampler takeSampler_ok [⟨1, "A", 10, "X"⟩]
      [] none 99 1 (by decide) (by with_unfolding_all decide)).2⟩

/-- C5 (amended): plain fallback rows always carry
`similarity_score = 0.0` and `final_score = 0.1`; the personalized
(liked-category) fallback rows instead carry `similarity_score = 0.5` and
`final_score = 0.5` — not the `0.0` similarity the claim asserts for all
fallback rows — and the fallback block is appended after the
similarity-ranked portion, never merged and re-sorted with it. -/
theorem fallback_scores_fixed (sample : Nat → List Product → List Product) :
    (∀ (ps : List Product) (n : Nat) (r : Recommendation),
        r ∈ plainFallback sample ps n →
        r.similarity_score = 0 ∧ r.final_score = 1 / 10)
      ∧ (∀ (df : List Product) (n : Nat) (r : Recommendation),
          r ∈ sampleAndFormat sample df n →
          r.similarity_score = 1 / 2 ∧ r.final_score = 1 / 2)
      ∧ ∀ (ps : List Product) (m : List (List ℚ)) (log : List Interaction)
          (sk : Option String) (pid : Int) (cnt : Nat) (i : Nat),
          ps.isEmpty = false →
          ps.findIdx? (fun p => decide (p.id = pid)) = some i →
          getRecsCore sample ps (some m) log sk pid cnt
            = (rankedPart log sk ps (adjustedRow log sk ps (m.getD i []))
                pid cnt).1
              ++ (personalizedFallback sample log sk ps
                  (cnt - (rankedPart log sk ps
                    (adjustedRow log sk ps (m.getD i [])) pid cnt).1.length)
                  (rankedPart log sk ps
                    (adjustedRow log sk ps (m.getD i [])) pid cnt).2).take
                (cnt - (rankedPart log sk ps
                  (adjustedRow log sk ps (m.getD i [])) pid cnt).1.length) := by
  refine ⟨?_, ?_, ?_⟩
  · intro ps n r hr
    unfold plainFallback at hr
    by_cases h0 : ps.isEmpty
    · rw [if_pos h0] at hr
      cases hr
    · rw [if_neg h0] at hr
      rcases List.mem_map.mp hr with ⟨p, -, rfl⟩
      exact ⟨rfl, rfl⟩
  · intro df n r hr
    unfold sampleAndFormat at hr
    by_cases h0 : df.isEmpty
    · rw [if_pos h0] at hr
      cases hr
    · rw [if_neg h0] at hr
      rcases List.mem_map.mp hr with ⟨p, -, rfl⟩
      exact ⟨rfl, rfl⟩
  · intro ps m log sk pid cnt i h0 hf
    obtain ⟨-, -, -, -, -, g6⟩ :=
      rankedLoop_spec log sk ps (adjustedRow log sk ps (m.getD i [])) cnt
        (argsortDesc (adjustedRow log sk ps (m.getD i []))) [pid] []
        (by intro r hr; cases hr) (by simp)
    have hle : (rankedPart log sk ps (adjustedRow log sk ps (m.getD i []))
        pid cnt).1.length ≤ cnt := by
      simpa [rankedPart] using g6
    simp only [getRecsCore, h0, Bool.false_eq_true, if_false, hf]
    set rp := rankedPart log sk ps (adjustedRow log sk ps (m.getD i []))
      pid cnt with hrp
    by_cases hlt : rp.1.length < cnt
    · rw [if_pos hlt, List.take_append_eq_append_take,
        List.take_of_length_le hle]
    · rw [if_neg hlt]
      have hcnt : rp.1.length = cnt := le_antisymm hle (not_lt.mp hlt)
      rw [hcnt, Nat.sub_self, List.take_zero, List.append_nil,
        ← hcnt, List.take_of_length_le (le_refl _)]

/-- C5 witness: the per-row score facts instantiated on concrete fallback
rows of both kinds. -/
theorem fallback_scores_fixed_witness :
    ((formatRecommendation ⟨1, "A", 10, "X"⟩ 0 (1 / 10)
          "Popular x product"
        ∈ plainFallback takeSampler [⟨1, "A", 10, "X"⟩] 1)
      ∧ ((formatRecommendation ⟨1, "A", 10, "X"⟩ 0 (1 / 10)
          "Popular x product").similarity_score = 0
        ∧ (formatRecommendation ⟨1, "A", 10, "X"⟩ 0 (1 / 10)
          "Popular x product").final_score = 1 / 10))
      ∧ ((formatRecommendation ⟨1, "A", 10, "X"⟩ (1 / 2) (1 / 2)
          "Popular in x (your preferred category)"
        ∈ sampleAndFormat takeSampler [⟨1, "A", 10, "X"⟩] 1)
      ∧ ((formatRecommendation ⟨1, "A", 10, "X"⟩ (1 / 2) (1 / 2)
          "Popular in x (your preferred category)").similarity_score = 1 / 2
        ∧ (formatRecommendation ⟨1, "A", 10, "X"⟩ (1 / 2) (1 / 2)
          "Popular in x (your preferred category)").final_score = 1 / 2)) :=
  ⟨⟨by with_unfolding_all decide,
      (fallback_scores_fixed takeSampler).1 [⟨1, "A", 10, "X"⟩] 1 _
        (by with_unfolding_all decide)⟩,
    ⟨by with_unfolding_all decide,
      (fallback_scores_fixed takeSampler).2.1 [⟨1, "A", 10, "X"⟩] 1 _
        (by with_unfolding_all decide)⟩⟩

/-- C5 counterexample: a concrete request whose ranked portion is empty and
whose two returned rows are personalized-fallback rows carrying
`similarity_score = 0.5`, contradicting the claim that every fallback row
carries `similarity_score = 0.0`. -/
theorem personalized_fallback_score_counterexample :
    (rankedPart [⟨"s", 2, "like"⟩] (some "s")
        [⟨1, "A", 10, "X"⟩, ⟨2, "B", 20, "Y"⟩, ⟨3, "C", 30, "Y"⟩]
        (adjustedRow [⟨"s", 2, "like"⟩] (some "s")
          [⟨1, "A", 10, "X"⟩, ⟨2, "B", 20, "Y"⟩, ⟨3, "C", 30, "Y"⟩]
          ((simMatrix [⟨1, "A", 10, "X"⟩, ⟨2, "B", 20, "Y"⟩,
            ⟨3, "C", 30, "Y"⟩]).getD 0 []))
        1 2).1 = []
      ∧ (getRecsCore takeSampler
          [⟨1, "A", 10, "X"⟩, ⟨2, "B", 20, "Y"⟩, ⟨3, "C", 30, "Y"⟩]
          (some (simMatrix [⟨1, "A", 10, "X"⟩, ⟨2, "B", 20, "Y"⟩,
            ⟨3, "C", 30, "Y"⟩]))
          [⟨"s", 2, "like"⟩] (some "s") 1 2).map
          (fun r => (r.similarity_score, r.final_score))
        = [(1 / 2, 1 / 2), (1 / 2, 1 / 2)] := by
  constructor
  · with_unfolding_all decide
  · with_unfolding_all decide

theorem degraded_step (res : Except Unit (List Product))
    (log : List Interaction) (sk : Option String)
    (sample : Nat → List Product → List Product) (pid : Int) (cnt : Nat)
    (e : EngineState) (hres : res = .error () ∨ res = .ok [])
    (he : e.is_loaded = false) :
    (get_recommendations res log sk sample pid cnt e).1.load_count
        = e.load_count + 1
      ∧ (get_recommendations res log sk sample pid cnt e).1.is_loaded = false
      ∧ (get_recommendations res log sk sample pid cnt e).2 = [] := by
  rcases hres with h | h <;> subst h <;>
    simp [get_recommendations, load_data, he, getRecsCore]

/-- C3 (amended): after a load that finds an empty catalog or fails with a
collaborator error, the engine is left with an empty product table but with
`is_loaded = False` — not an "empty loaded" state — so every subsequent
`get_recommendations` call retries the load (`load_count` grows by one per
call); each such call still returns an empty list, and the collaborator
failure is swallowed at the load boundary rather than propagated. -/
theorem empty_or_failed_load_degrades (res : Except Unit (List Product))
    (log : List Interaction) (sk : Option String)
    (sample : Nat → List Product → List Product) (pid : Int) (cnt : Nat)
    (hres : res = .error () ∨ res = .ok []) (k : Nat) :
    (callRepeatedly res log sk sample pid cnt k initialEngine).load_count = k
      ∧ (callRepeatedly res log sk sample pid cnt k
          initialEngine).is_loaded = false
      ∧ (get_recommendations res log sk sample pid cnt
          (callRepeatedly res log sk sample pid cnt k initialEngine)).2
        = [] := by
  have main : ∀ (k : Nat) (e : EngineState), e.is_loaded = false →
      (callRepeatedly res log sk sample pid cnt k e).load_count
          = e.load_count + k
        ∧ (callRepeatedly res log sk sample pid cnt k e).is_loaded
          = false := by
    intro k
    induction k with
    | zero =>
      intro e he
      exact ⟨rfl, he⟩
    | succ n ih =>
      intro e he
      obtain ⟨h1, h2, -⟩ := degraded_step res log sk sample pid cnt e hres he
      obtain ⟨ih1, ih2⟩ :=
        ih (get_recommendations res log sk sample pid cnt e).1 h2
      refine ⟨?_, ih2⟩
      rw [callRepeatedly, ih1, h1]
      omega
  obtain ⟨h1, h2⟩ := main k initialEngine rfl
  refine ⟨?_, h2, (degraded_step res log sk sample pid cnt _ hres h2).2.2⟩
  simpa [initialEngine] using h1

/-- C3 witness: the degradation statement instantiated at the empty-catalog
collaborator answer after two calls. -/
theorem empty_or_failed_load_degrades_witness :
    ((Except.ok [] : Except Unit (List Product)) = .error ()
        ∨ (Except.ok [] : Except Unit (List Product)) = .ok [])
      ∧ ((callRepeatedly (.ok []) [] none takeSampler 1 4 2
            initialEngine).load_count = 2
        ∧ (callRepeatedly (.ok []) [] none takeSampler 1 4 2
            initialEngine).is_loaded = false
        ∧ (get_recommendations (.ok []) [] none takeSampler 1 4
            (callRepeatedly (.ok []) [] none takeSampler 1 4 2
              initialEngine)).2 = []) :=
  ⟨Or.inr rfl,
    empty_or_failed_load_degrades (.ok []) [] none takeSampler 1 4
      (Or.inr rfl) 2⟩

/-- C3 counterexample: from a fresh engine, an empty-catalog load leaves
`is_loaded = False` (no explicit "loaded empty" state), and a second
`get_recommendations` call runs `load_data` again — the load is retried on
every call, contradicting the claimed no-retry behaviour. -/
theorem empty_load_retries_counterexample :
    (get_recommendations (.ok []) [] none takeSampler 1 4
        initialEngine).1.is_loaded = false
      ∧ (get_recommendations (.ok []) [] none takeSampler 1 4
          initialEngine).1.load_count = 1
      ∧ (callRepeatedly (.ok []) [] none takeSampler 1 4 2
          initialEngine).load_count = 2
      ∧ (get_recommendations (.ok []) [] none takeSampler 1 4
          initialEngine).2 = [] := by
  refine ⟨rfl, rfl, rfl, rfl⟩

/-- C8: `refresh_data` followed by `get_recommendations` against an
unchanged catalog answer reproduces exactly the similarity matrix and the
recommendation list produced before the refresh — feature construction and
cosine similarity are deterministic in the catalog contents (the embedding
is exact, so "within floating-point tolerance" strengthens to equality). -/
theorem refresh_deterministic (c : List Product) (log : List Interaction)
    (sk : Option String) (sample : Nat → List Product → List Product)
    (pid : Int) (cnt : Nat) (hc : c ≠ []) :
    (refresh_data (.ok c)
        (load_data (.ok c) initialEngine)).similarity_matrix
      = (load_data (.ok c) initialEngine).similarity_matrix
      ∧ (get_recommendations (.ok c) log sk sample pid cnt
          (refresh_data (.ok c) (load_data (.ok c) initialEngine))).2
        = (get_recommendations (.ok c) log sk sample pid cnt
          (load_data (.ok c) initialEngine)).2 := by
  have h0 : c.isEmpty = false := List.isEmpty_eq_false.mpr hc
  constructor <;>
    simp [refresh_data, load_data, get_recommendations, h0]

/-- C8 witness: refresh determinism on a concrete two-product catalog. -/
theorem refresh_deterministic_witness :
    (([⟨1, "A", 10, "X"⟩, ⟨2, "B", 20, "Y"⟩] : List Product) ≠ [])
      ∧ ((refresh_data (.ok [⟨1, "A", 10, "X"⟩, ⟨2, "B", 20, "Y"⟩])
            (load_data (.ok [⟨1, "A", 10, "X"⟩, ⟨2, "B", 20, "Y"⟩])
              initialEngine)).similarity_matrix
          = (load_data (.ok [⟨1, "A", 10, "X"⟩, ⟨2, "B", 20, "Y"⟩])
            initialEngine).similarity_matrix
        ∧ (get_recommendations (.ok [⟨1, "A", 10, "X"⟩, ⟨2, "B", 20, "Y"⟩])
            [] none takeSampler 1 4
            (refresh_data (.ok [⟨1, "A", 10, "X"⟩, ⟨2, "B", 20, "Y"⟩])
              (load_data (.ok [⟨1, "A", 10, "X"⟩, ⟨2, "B", 20, "Y"⟩])
                initialEngine))).2
          = (get_recommendations
            (.ok [⟨1, "A", 10, "X"⟩, ⟨2, "B", 20, "Y"⟩]) [] none
            takeSampler 1 4
            (load_data (.ok [⟨1, "A", 10, "X"⟩, ⟨2, "B", 20, "Y"⟩])
              initialEngine)).2) :=
  ⟨by decide,
    refresh_deterministic [⟨1, "A", 10, "X"⟩, ⟨2, "B", 20, "Y"⟩] [] none
      takeSampler 1 4 (by decide)⟩

theorem find?_key_append_single {β : Type} (m : List (String × β))
    (x : String × β) (c : String) :
    (m ++ [x]).find? (fun e => decide (e.1 = c))
      = match m.find? (fun e => decide (e.1 = c)) with
        | some e => some e
        | none => if x.1 = c then some x else none := by
  induction m with
  | nil =>
    by_cases h : x.1 = c <;> simp [h]
  | cons a t ih =>
    by_cases h : a.1 = c
    · simp [h]
    · simpa [h] using ih

theorem find?_key_map {β γ : Type} (g : String × β → String × γ)
    (hg : ∀ e, (g e).1 = e.1) (m : List (String × β)) (c : String) :
    (m.map g).find? (fun e => decide (e.1 = c))
      = (m.find? (fun e => decide (e.1 = c))).map g := by
  induction m with
  | nil => rfl
  | cons a t ih =>
    by_cases h : a.1 = c
    · have hga : (g a).1 = c := by rw [hg a]; exact h
      simp [h, hga]
    · have hga : ¬(g a).1 = c := by rw [hg a]; exact h
      simpa [h, hga] using ih

theorem any_key_eq_isSome {β : Type} (m : List (String × β)) (c : String) :
    (m.any fun e => decide (e.1 = c))
      = (m.find? (fun e => decide (e.1 = c))).isSome := by
  induction m with
  | nil => rfl
  | cons a t ih =>
    by_cases h : a.1 = c <;> simp [h, ih]

theorem likesInCategory_cons (ps : List Product) (c : String)
    (i : Interaction) (rest : List Interaction) :
    likesInCategory (i :: rest) ps c
      = (match findProduct ps i.product_id with
          | some p => if i.ty = "like" ∧ p.category = c then 1 else 0
          | none => 0) + likesInCategory rest ps c := by
  unfold likesInCategory
  rw [List.filter_cons]
  cases hfp : findProduct ps i.product_id with
  | none => simp [hfp]
  | some p =>
    simp only [hfp]
    by_cases h : i.ty = "like" ∧ p.category = c
    · rw [if_pos (decide_eq_true h), if_pos h, List.length_cons]
      omega
    · rw [if_neg (by simpa using h), if_neg h]
      omega

theorem dislikesInCategory_cons (ps : List Product) (c : String)
    (i : Interaction) (rest : List Interaction) :
    dislikesInCategory (i :: rest) ps c
      = (match findProduct ps i.product_id with
          | some p => if i.ty = "dislike" ∧ p.category = c then 1 else 0
          | none => 0) + dislikesInCategory rest ps c := by
  unfold dislikesInCategory
  rw [List.filter_cons]
  cases hfp : findProduct ps i.product_id with
  | none => simp [hfp]
  | some p =>
    simp only [hfp]
    by_cases h : i.ty = "dislike" ∧ p.category = c
    · rw [if_pos (decide_eq_true h), if_pos h, List.length_cons]
      omega
    · rw [if_neg (by simpa using h), if_neg h]
      omega

theorem categoryTracked_cons (ps : List Product) (c : String)
    (i : Interaction) (rest : List Interaction) :
    categoryTracked (i :: rest) ps c
      = ((match findProduct ps i.product_id with
          | some p => decide (p.category = c)
          | none => false) || categoryTracked rest ps c) := by
  unfold categoryTracked
  rw [List.any_cons]

/-- What the `category_preferences` dict-building loop of
`_apply_user_preferences` computes, characterised per category: starting
from an arbitrary dict `m`, category `c`'s entry ends at its starting counts
plus the number of liked/disliked still-existing products of category `c`;
a category never touched stays absent. -/
theorem buildCatPrefs_find (ps : List Product) (c : String)
    (inter : List Interaction) :
    ∀ m : List (String × Nat × Nat),
    (inter.foldl (addCatInteraction ps) m).find? (fun e => decide (e.1 = c))
      = match m.find? (fun e => decide (e.1 = c)) with
        | some e => some (e.1, e.2.1 + likesInCategory inter ps c,
            e.2.2 + dislikesInCategory inter ps c)
        | none =>
          if categoryTracked inter ps c = true then
            some (c, likesInCategory inter ps c,
              dislikesInCategory inter ps c)
          else none := by
  induction inter with
  | nil =>
    intro m
    cases hm : m.find? (fun e => decide (e.1 = c)) with
    | none =>
      simp [likesInCategory, dislikesInCategory, categoryTracked, hm]
    | some e =>
      simp [likesInCategory, dislikesInCategory, hm]
  | cons i rest ih =>
    intro m
    rw [List.foldl_cons, ih (addCatInteraction ps m i)]
    cases hfp : findProduct ps i.product_id with
    | none =>
      have hstep : addCatInteraction ps m i = m := by
        unfold addCatInteraction
        rw [hfp]
      rw [hstep, likesInCategory_cons, dislikesInCategory_cons,
        categoryTracked_cons, hfp]
      simp
    | some p =>
      have hstep : addCatInteraction ps m i =
          (let m1 := if m.any fun e => decide (e.1 = p.category) then m
            else m ++ [(p.category, 0, 0)]
          if i.ty = "like" then
            m1.map fun e =>
              if e.1 = p.category then (e.1, e.2.1 + 1, e.2.2) else e
          else if i.ty = "dislike" then
            m1.map fun e =>
              if e.1 = p.category then (e.1, e.2.1, e.2.2 + 1) else e
          else m1) := by
        unfold addCatInteraction
        rw [hfp]
      rw [hstep]
      have hm1find :
          (if m.any fun e => decide (e.1 = p.category) then m
            else m ++ [(p.category, 0, 0)]).find?
              (fun e => decide (e.1 = c))
            = match m.find? (fun e => decide (e.1 = c)) with
              | some e => some e
              | none =>
                if p.category = c then some (p.category, 0, 0) else none := by
        by_cases hany : (m.any fun e => decide (e.1 = p.category)) = true
        · rw [if_pos hany]
          cases hm : m.find? (fun e => decide (e.1 = c)) with
          | some e => rfl
          | none =>
            by_cases hpc : p.category = c
            · rw [any_key_eq_isSome] at hany
              rw [hpc] at hany
              rw [hm] at hany
              cases hany
            · simp [hpc]
        · rw [if_neg hany, find?_key_append_single]
          cases hm : m.find? (fun e => decide (e.1 = c)) <;> simp [hm]
      by_cases hpc : p.category = c
      · have hcnt_like : likesInCategory (i :: rest) ps c
            = (if i.ty = "like" then 1 else 0) + likesInCategory rest ps c
            := by
          rw [likesInCategory_cons, hfp]
          by_cases hty : i.ty = "like" <;> simp [hty, hpc]
        have hcnt_dis : dislikesInCategory (i :: rest) ps c
            = (if i.ty = "dislike" then 1 else 0)
              + dislikesInCategory rest ps c := by
          rw [dislikesInCategory_cons, hfp]
          by_cases hty : i.ty = "dislike" <;> simp [hty, hpc]
        have htr : categoryTracked (i :: rest) ps c = true := by
          rw [categoryTracked_cons, hfp]
          simp [hpc]
        rw [hcnt_like, hcnt_dis, htr]
        by_cases hty : i.ty = "like"
        · rw [if_pos hty,
            find?_key_map _
              (fun e => by by_cases h : e.1 = p.category <;> simp [h]),
            hm1find]
          cases hm : m.find? (fun e => decide (e.1 = c)) with
          | some e =>
            have he1 : e.1 = c := by simpa using List.find?_some hm
            dsimp only [Option.map]
            rw [if_pos (he1.trans hpc.symm)]
            simp [hty, hpc] <;> omega
          | none =>
            rw [if_pos hpc]
            dsimp only [Option.map]
            rw [if_pos (show p.category = p.category from rfl)]
            simp [hty, hpc] <;> omega
        · by_cases htyd : i.ty = "dislike"
          · rw [if_neg hty, if_pos htyd,
              find?_key_map _
                (fun e => by by_cases h : e.1 = p.category <;> simp [h]),
              hm1find]
            cases hm : m.find? (fun e => decide (e.1 = c)) with
            | some e =>
              have he1 : e.1 = c := by simpa using List.find?_some hm
              dsimp only [Option.map]
              rw [if_pos (he1.trans hpc.symm)]
              simp [hty, htyd, hpc] <;> omega
            | none =>
              rw [if_pos hpc]
              dsimp only [Option.map]
              rw [if_pos (show p.category = p.category from rfl)]
              simp [hty, htyd, hpc] <;> omega
          · rw [if_neg hty, if_neg htyd, hm1find]
            cases hm : m.find? (fun e => decide (e.1 = c)) with
            | some e =>
              simp [hty, htyd, hpc] <;> omega
            | none =>
              rw [if_pos hpc]
              simp [hty, htyd, hpc] <;> omega
      · have hcnt_like : likesInCategory (i :: rest) ps c
            = likesInCategory rest ps c := by
          rw [likesInCategory_cons, hfp]
          simp [hpc]
        have hcnt_dis : dislikesInCategory (i :: rest) ps c
            = dislikesInCategory rest ps c := by
          rw [dislikesInCategory_cons, hfp]
          simp [hpc]
        have htr : categoryTracked (i :: rest) ps c
            = categoryTracked rest ps c := by
          rw [categoryTracked_cons, hfp]
          simp [hpc]
        rw [hcnt_like, hcnt_dis, htr]
        have hfix : ∀ g : String × Nat × Nat → String × Nat × Nat,
            (∀ e, (g e).1 = e.1) →
            (∀ e, e.1 = c → g e = e) →
            ((if m.any fun e => decide (e.1 = p.category) then m
              else m ++ [(p.category, 0, 0)]).map g).find?
                (fun e => decide (e.1 = c))
              = m.find? (fun e => decide (e.1 = c)) := by
          intro g hg hfixg
          rw [find?_key_map g hg, hm1find]
          cases hm : m.find? (fun e => decide (e.1 = c)) with
          | some e =>
            have he1 : e.1 = c := by
              have := List.find?_some hm
              simpa using this
            simp [hfixg e he1]
          | none =>
            simp [hpc]
        by_cases hty : i.ty = "like"
        · rw [if_pos hty,
            hfix _ (fun e => by by_cases h : e.1 = p.category <;> simp [h])
              (fun e he => by
                rw [if_neg (show ¬e.1 = p.category by
                  rw [he]; exact fun h => hpc h.symm)])]
        · by_cases htyd : i.ty = "dislike"
          · rw [if_neg hty, if_pos htyd,
              hfix _ (fun e => by by_cases h : e.1 = p.category <;> simp [h])
                (fun e he => by
                  rw [if_neg (show ¬e.1 = p.category by
                    rw [he]; exact fun h => hpc h.symm)])]
          · rw [if_neg hty, if_neg htyd, hm1find]
            cases hm : m.find? (fun e => decide (e.1 = c)) with
            | some e => rfl
            | none => simp [hpc]

theorem directLikes_cons (pid : Int) (i : Interaction)
    (rest : List Interaction) :
    directLikes (i :: rest) pid
      = (if i.product_id = pid ∧ i.ty = "like" then 1 else 0)
        + directLikes rest pid := by
  unfold directLikes
  rw [List.filter_cons]
  by_cases h : i.product_id = pid ∧ i.ty = "like"
  · rw [if_pos (decide_eq_true h), if_pos h, List.length_cons]
    omega
  · rw [if_neg (by simpa using h), if_neg h]
    omega

theorem directDislikes_cons (pid : Int) (i : Interaction)
    (rest : List Interaction) :
    directDislikes (i :: rest) pid
      = (if i.product_id = pid ∧ i.ty = "dislike" then 1 else 0)
        + directDislikes rest pid := by
  unfold directDislikes
  rw [List.filter_cons]
  by_cases h : i.product_id = pid ∧ i.ty = "dislike"
  · rw [if_pos (decide_eq_true h), if_pos h, List.length_cons]
    omega
  · rw [if_neg (by simpa using h), if_neg h]
    omega

/-- The direct-interaction loop of `_apply_user_preferences` multiplies the
accumulator by `1.5` once per direct like and by `0.3` once per direct
dislike of the candidate product. -/
theorem foldl_direct (pid : Int) (inter : List Interaction) :
    ∀ a : ℚ,
    inter.foldl
      (fun acc i =>
        if i.product_id = pid then
          if i.ty = "like" then acc * (3 / 2)
          else if i.ty = "dislike" then acc * (3 / 10)
          else acc
        else acc) a
      = a * (3 / 2) ^ directLikes inter pid
        * (3 / 10) ^ directDislikes inter pid := by
  induction inter with
  | nil =>
    intro a
    simp [directLikes, directDislikes]
  | cons i rest ih =>
    intro a
    rw [List.foldl_cons, directLikes_cons, directDislikes_cons]
    by_cases hp : i.product_id = pid
    · by_cases hl : i.ty = "like"
      · have hnd : ¬(i.product_id = pid ∧ i.ty = "dislike") := by
          rintro ⟨-, hd⟩
          rw [hl] at hd
          exact absurd hd (by decide)
        rw [if_pos hp, if_pos hl, ih, if_pos ⟨hp, hl⟩, if_neg hnd]
        ring
      · by_cases hd : i.ty = "dislike"
        · have hnl : ¬(i.product_id = pid ∧ i.ty = "like") := by
            rintro ⟨-, hlk⟩
            exact hl hlk
          rw [if_pos hp, if_neg hl, if_pos hd, ih, if_neg hnl,
            if_pos ⟨hp, hd⟩]
          ring
        · rw [if_pos hp, if_neg hl, if_neg hd, ih,
            if_neg (fun h => hl h.2), if_neg (fun h => hd h.2)]
          ring_nf
    · rw [if_neg hp, ih, if_neg (fun h => hp h.1), if_neg (fun h => hp h.1)]
      ring_nf

/-- Positional characterisation of the per-product adjustment loop: the
entry at `idx` is the incoming score times the category factor, the
price-range factor and the direct-feedback factor of the product at the
same position. -/
theorem adjustFrom_get? (cs : List (String × ℚ)) (pp : List ℚ)
    (inter : List Interaction) :
    ∀ (ps : List Product) (ss : List ℚ) (idx : Nat) (p : Product),
    ps.get? idx = some p → idx < ss.length →
    (adjustFrom cs pp inter ps ss).get? idx
      = some (ss.getD idx 0
          * (match cs.find? (fun e => decide (e.1 = p.category)) with
             | some e => e.2
             | none => 1)
          * (if pp.isEmpty = false ∧ withinStd pp p.price = true
              then (13 / 10 : ℚ) else 1)
          * ((3 / 2 : ℚ) ^ directLikes inter p.id
              * (3 / 10 : ℚ) ^ directDislikes inter p.id)) := by
  intro ps
  induction ps with
  | nil =>
    intro ss idx p hp
    simp at hp
  | cons q ps' ih =>
    intro ss idx p hp hidx
    cases ss with
    | nil => simp at hidx
    | cons s ss' =>
      cases idx with
      | zero =>
        have hq : q = p := by simpa using hp
        subst hq
        simp only [adjustFrom]
        rw [List.get?_cons_zero, foldl_direct]
        cases hfind : cs.find? (fun e => decide (e.1 = q.category)) with
        | some e =>
          by_cases hcond : pp.isEmpty = false ∧ withinStd pp q.price = true
          · rw [if_pos hcond, if_pos hcond]
            simp only [List.getD_cons_zero, Option.some.injEq]
            ring
          · rw [if_neg hcond, if_neg hcond]
            simp only [List.getD_cons_zero, Option.some.injEq]
            ring
        | none =>
          by_cases hcond : pp.isEmpty = false ∧ withinStd pp q.price = true
          · rw [if_pos hcond, if_pos hcond]
            simp only [List.getD_cons_zero, Option.some.injEq]
            ring
          · rw [if_neg hcond, if_neg hcond]
            simp only [List.getD_cons_zero, Option.some.injEq]
            ring
      | succ n =>
        simp only [adjustFrom]
        rw [List.get?_cons_succ, List.getD_cons_succ]
        exact ih ss' n p (by simpa using hp) (by simpa using hidx)

/-- C2 (amended): with an identity supplied, the multiplier applied to the
similarity entry of each candidate product is the product of three factors,
each starting from `1.0`: the category factor
`max(0.1, 1 + 0.5·likes − 0.3·dislikes)` for every category the identity
has interacted with through a still-existing product (not only categories
it has liked — a disliked-only category is damped too, see the recorded
counterexample); the price factor `1.3` for candidates priced within one
standard deviation of the average liked price, when at least one liked
price exists; and the direct factor `1.5` per direct like and `0.3` per
direct dislike of the candidate itself — in particular, a single "dislike"
on the exact candidate contributes a direct factor of exactly `0.3`. -/
theorem apply_user_preferences_multiplier (log : List Interaction)
    (s : String) (ps : List Product) (scores : List ℚ) (idx : Nat)
    (p : Product) (hp : ps.get? idx = some p)
    (hidx : idx < scores.length) :
    (applyUserPreferences s log ps scores).get? idx
      = some (scores.getD idx 0
          * (if categoryTracked (sessionInteractions log s) ps p.category
                = true then
              max (1 / 10)
                (1 + (likesInCategory (sessionInteractions log s) ps
                    p.category : ℚ) * (1 / 2)
                  - (dislikesInCategory (sessionInteractions log s) ps
                    p.category : ℚ) * (3 / 10))
            else 1)
          * (if (likedPrices (sessionInteractions log s) ps).isEmpty = false
                ∧ withinStd (likedPrices (sessionInteractions log s) ps)
                  p.price = true then (13 / 10 : ℚ) else 1)
          * ((3 / 2 : ℚ) ^ directLikes (sessionInteractions log s) p.id
              * (3 / 10 : ℚ)
                ^ directDislikes (sessionInteractions log s) p.id)) := by
  simp only [applyUserPreferences]
  by_cases hemp : (sessionInteractions log s).isEmpty
  · rw [if_pos hemp]
    have hnil : sessionInteractions log s = [] := by simpa using hemp
    rw [hnil]
    have h1 : categoryTracked [] ps p.category = false := rfl
    have h2 : likedPrices [] ps = ([] : List ℚ) := rfl
    have h3 : directLikes [] p.id = 0 := rfl
    have h4 : directDislikes [] p.id = 0 := rfl
    rw [h1, h2, h3, h4]
    simp only [Bool.false_eq_true, if_false, List.isEmpty_nil, false_and,
      pow_zero, mul_one]
    have hsome : scores.get? idx = some (scores.getD idx 0) := by
      rw [List.getD_eq_getD_get?]
      cases hg : scores.get? idx with
      | none =>
        rw [List.get?_eq_none] at hg
        omega
      | some v => rfl
    simp only [hsome]
    simp
  · rw [if_neg hemp,
      adjustFrom_get? _ _ (sessionInteractions log s) ps scores idx p hp
        hidx]
    have hfac :
        (match ((buildCatPrefs (sessionInteractions log s) ps).map fun e =>
            (e.1, max (1 / 10)
              (1 + (e.2.1 : ℚ) * (1 / 2) - (e.2.2 : ℚ) * (3 / 10)))).find?
            (fun e => decide (e.1 = p.category)) with
          | some e => e.2
          | none => (1 : ℚ))
        = (if categoryTracked (sessionInteractions log s) ps p.category
              = true then
            max (1 / 10)
              (1 + (likesInCategory (sessionInteractions log s) ps
                  p.category : ℚ) * (1 / 2)
                - (dislikesInCategory (sessionInteractions log s) ps
                  p.category : ℚ) * (3 / 10))
          else 1) := by
      rw [find?_key_map
        (fun e : String × Nat × Nat => (e.1, max (1 / 10)
          (1 + (e.2.1 : ℚ) * (1 / 2) - (e.2.2 : ℚ) * (3 / 10))))
        (fun e => rfl)]
      unfold buildCatPrefs
      rw [buildCatPrefs_find ps p.category (sessionInteractions log s) []]
      by_cases htr : categoryTracked (sessionInteractions log s) ps
          p.category = true
      · rw [if_pos htr]
        simp only [List.find?_nil, if_pos htr, Option.map_some]
        rfl
      · rw [if_neg htr]
        simp only [List.find?_nil, if_neg htr, Option.map_none]
        rfl
    rw [hfac]

/-- C2 witness: the multiplier law at a concrete one-product catalog with a
single "dislike" on the candidate itself: the category factor is
`max(0.1, 1 − 0.3) = 0.7`, no price factor applies, and the direct factor
is `0.3¹ = 0.3`. -/
theorem apply_user_preferences_multiplier_witness :
    (([⟨1, "A", 10, "X"⟩] : List Product).get? 0 = some ⟨1, "A", 10, "X"⟩)
      ∧ 0 < ([(1 : ℚ)] : List ℚ).length
      ∧ (applyUserPreferences "s" [⟨"s", 1, "dislike"⟩] [⟨1, "A", 10, "X"⟩]
          [(1 : ℚ)]).get? 0
        = some (([(1 : ℚ)] : List ℚ).getD 0 0
            * (if categoryTracked
                  (sessionInteractions [⟨"s", 1, "dislike"⟩] "s")
                  [⟨1, "A", 10, "X"⟩] (Product.category ⟨1, "A", 10, "X"⟩)
                  = true then
                max (1 / 10)
                  (1 + (likesInCategory
                      (sessionInteractions [⟨"s", 1, "dislike"⟩] "s")
                      [⟨1, "A", 10, "X"⟩]
                      (Product.category ⟨1, "A", 10, "X"⟩) : ℚ) * (1 / 2)
                    - (dislikesInCategory
                      (sessionInteractions [⟨"s", 1, "dislike"⟩] "s")
                      [⟨1, "A", 10, "X"⟩]
                      (Product.category ⟨1, "A", 10, "X"⟩) : ℚ) * (3 / 10))
              else 1)
            * (if (likedPrices
                  (sessionInteractions [⟨"s", 1, "dislike"⟩] "s")
                  [⟨1, "A", 10, "X"⟩]).isEmpty = false
                ∧ withinStd (likedPrices
                    (sessionInteractions [⟨"s", 1, "dislike"⟩] "s")
                    [⟨1, "A", 10, "X"⟩])
                  (Product.price ⟨1, "A", 10, "X"⟩) = true
              then (13 / 10 : ℚ) else 1)
            * ((3 / 2 : ℚ) ^ directLikes
                (sessionInteractions [⟨"s", 1, "dislike"⟩] "s")
                (Product.id ⟨1, "A", 10, "X"⟩)
              * (3 / 10 : ℚ) ^ directDislikes
                (sessionInteractions [⟨"s", 1, "dislike"⟩] "s")
                (Product.id ⟨1, "A", 10, "X"⟩))) :=
  ⟨rfl, by decide,
    apply_user_preferences_multiplier [⟨"s", 1, "dislike"⟩] "s"
      [⟨1, "A", 10, "X"⟩] [(1 : ℚ)] 0 ⟨1, "A", 10, "X"⟩ rfl (by decide)⟩

/-- C2 counterexample: the claim scopes the category factor to "each
category the identity has liked", but the source applies it to every
interacted category.  With a single "dislike" on product 2 of category "Y"
and candidate product 1 — also category "Y" but never interacted with — the
claim's multiplier is `1.0` (no liked category, no liked prices, no direct
interaction), yet the engine multiplies the candidate's entry by
`max(0.1, 1 − 0.3) = 0.7`. -/
theorem disliked_category_multiplier_counterexample :
    (applyUserPreferences "s" [⟨"s", 2, "dislike"⟩]
        [⟨1, "B", 50, "Y"⟩, ⟨2, "C", 60, "Y"⟩] [1, 1]).get? 0
      = some (7 / 10) := by
  with_unfolding_all decide

end RecEngine
